import Mathlib

/-!
Verification of the keyword-relevance matching logic of the Engineer Advisor
application (src/app.py).  Strings are modelled as lists of characters;
Python's `str.lower()` is modelled on ASCII letters, `str.split()` as
splitting on whitespace runs, and the `in` substring operator as `occursIn`.
-/

set_option maxRecDepth 20000

/-- Character strings, modelled as lists of characters. -/
abbrev Str := List Char

/-- Conversion from Lean string literals to the character-list model. -/
def strL (s : String) : Str := s.data

/-- Whitespace test used by the model of Python str.split(). -/
def isWs (c : Char) : Bool := c == ' ' || c == '\t' || c == '\n' || c == '\r'

/-- ASCII lower-casing of a single character (model of str.lower()). -/
def lowerChar (c : Char) : Char :=
  if 'A' ≤ c ∧ c ≤ 'Z' then Char.ofNat (c.toNat + 32) else c

/-- ASCII lower-casing of a string (model of str.lower()). -/
def toLowerL (s : Str) : Str := s.map lowerChar

/-- Model of the Python substring test `n in hay`. -/
def occursIn (n : Str) : Str → Bool
  | [] => n.isEmpty
  | c :: t => n.isPrefixOf (c :: t) || occursIn n t

/-- Model of Python `s.split()`: split on whitespace runs, dropping
empty tokens.  Defined structurally so that it computes by reduction. -/
def splitWs : Str → List Str
  | [] => []
  | c :: cs =>
    if isWs c then splitWs cs
    else
      match cs with
      | [] => [[c]]
      | d :: _ =>
        if isWs d then [c] :: splitWs cs
        else
          match splitWs cs with
          | [] => [[c]]
          | t :: ts => (c :: t) :: ts

/-- Stop-word set of find_quick_fix (src/app.py line 134). -/
def stopWordsFix : List Str :=
  [strL "how", strL "to", strL "the", strL "a", strL "an", strL "on",
   strL "in", strL "at", strL "for", strL "with", strL "is", strL "do",
   strL "i", strL "my", strL "can", strL "you", strL "from"]

/-- Stop-word set of the quick-guides matcher (src/app.py line 1107);
it lacks the word from. -/
def stopWordsGuides : List Str :=
  [strL "how", strL "to", strL "the", strL "a", strL "an", strL "on",
   strL "in", strL "at", strL "for", strL "with", strL "is", strL "do",
   strL "i", strL "my", strL "can", strL "you"]

/-- Significant query terms of find_quick_fix (src/app.py line 135):
tokens of the lower-cased query of length > 2 that are not stop words. -/
def sigTermsFix (query : Str) : List Str :=
  (splitWs (toLowerL query)).filter
    (fun w => decide (2 < w.length) && !(stopWordsFix.contains w))

/-- Significant query terms of the quick-guides matcher (src/app.py
line 1108): raw tokens of length > 2 whose lower-casing is not a stop
word, each lower-cased. -/
def sigTermsGuides (query : Str) : List Str :=
  ((splitWs query).filter
    (fun w => decide (2 < w.length) && !(stopWordsGuides.contains (toLowerL w)))).map
    toLowerL

/-- Required match count of the quick-guides matcher
(src/app.py lines 1118-1126), as a function of the number of
significant query terms. -/
def requiredMatches (n : Nat) : Nat :=
  if n = 1 then 1
  else if n = 2 then 2
  else if n ≤ 4 then 3
  else 3

/-- The panel field of a quick fix is either a single string or a list
of strings (src/app.py line 146 normalises with isinstance). -/
inductive PanelField where
  | one : Str → PanelField
  | many : List Str → PanelField
deriving DecidableEq

/-- Normalisation of the panel field to a list
(src/app.py line 146). -/
def panelsOf : PanelField → List Str
  | .one p => [p]
  | .many ps => ps

/-- A quick-fix entry of the QUICK_FIXES database. -/
structure QuickFix where
  title : Str
  panel : PanelField
  keywords : List Str
  answer : Str
deriving DecidableEq

/-- The QUICK_FIXES database (src/app.py lines 17-127). -/
def QUICK_FIXES : List QuickFix :=
  [{ title := strL "Remove Line Fault - Scantronic",
     panel := .one (strL "scantronic"),
     keywords := [strL "remove", strL "line", strL "fault", strL "clear", strL "reset"],
     answer := strL "Lost phone line:\n\nDisable options on 101, 106, 107. \nRecommend upgrading panel to support new comms." },
   { title := strL "Change User Code - Optima",
     panel := .one (strL "optima"),
     keywords := [strL "change", strL "user", strL "code"],
     answer := strL "Log into engineer mode (usually prog > 9999)\nPress 8 > then type new code > may have to press prog to confirm." },
   { title := strL "Backdoor into Engineer Mode - Enforcer",
     panel := .one (strL "enforcer"),
     keywords := [strL "backdoor", strL "back", strL "door", strL "engineer", strL "force"],
     answer := strL "Power down mains and battery - Put black connector in top right corner - put 2 pin jumper on pins 3 and 4 on lower from left to right - Power back up mains - when time shows press yes and let ring for 1 minute - it will then back into engineer mode, make sure you change codes you need to now and save." },
   { title := strL "Default Codes Only - Accenta G3",
     panel := .one (strL "accenta"),
     keywords := [strL "default", strL "codes", strL "only"],
     answer := strL "Down power > wire link between left PA and far right Set > power up codes should now be default. (0123/1234 user, 9999 engineer) \n\nNow reset codes: prog **** > 8 > type new code." },
   { title := strL "Engineer Reset - Aritech",
     panel := .one (strL "aritech"),
     keywords := [strL "engineer", strL "reset", strL "how", strL "perform"],
     answer := strL "Get into engineer menu (0-**** > press down arrow) then press either 645 or 745 depending on panel. Screen will say reset performed or similar." },
   { title := strL "How to Change Codes - Scantronic 9100/MX48",
     panel := .many [strL "mx48", strL "9100", strL "scantronic"],
     keywords := [strL "change", strL "user", strL "engineer", strL "code", strL "mx48", strL "9100"],
     answer := strL "From engineer menu (must have panel lid open) press 20 to change engineer, \n21 to change user." },
   { title := strL "Setup Vonex App - Agility 3",
     panel := .one (strL "agility"),
     keywords := [strL "setup", strL "vonex", strL "app"],
     answer := strL "Press button on Vonex for 1 min, \nThen connect via hot-spot from phone, \n12345678 = hot-spot password\nSearch in browser for 192.168.254.254\nLogin using A:admin, P:admin, \nFollow procedure and connect to customer WiFi" },
   { title := strL "Walk Test - FM4000",
     panel := .one (strL "fm4000"),
     keywords := [strL "walk", strL "test", strL "fm4000", strL "enter"],
     answer := strL "USER code - 4 - bell test for 10 seconds\nUSER code - 9 - walk test\nUSER code - 6 - exit walk test\nUSER code - 7 - code change - enter new code - full set" },
   { title := strL "Add SmartCom App - Texecom Elite",
     panel := .many [strL "texecom", strL "elite"],
     keywords := [strL "add", strL "smartcom", strL "app", strL "connect"],
     answer := strL "Compatibility = Elite series V4+\n\nConnect cable to com ports (4 core to com1, 2 core to com2) \nEnter engineer mode, \n7 udl/digi options, \nCom port setup (option 8), \nCom port 1 = smartcom\nCom port 2 = comip module\nLeave menu and go to udl options (option 5)\nPress 4 - press no - enter udl password - press yes\n\nNow go back to main udl/digi options menu, \nProgram digi (option 3), \nChange arc 1 to texecom connect, \n\nHave lid off smartcom and hold the yellow button for roughly 7 seconds, WiFi led will flash, \nNow connect via hot-spot from phone, \nShould take you to the texecom connect setup (if it doesn\x27t - open browser and navigate to 192.168.2.1) \nSetup to customer WiFi. \n\nGo back into udl/digi options\nNavigate to \"Enable texecom connect app\" (option 4)\nSystem will give you a connect code to type into customer phone on the texecom connect app." },
   { title := strL "Add Pyronix Cloud - Euro/Enforcer",
     panel := .many [strL "euro", strL "enforcer", strL "pyronix"],
     keywords := [strL "add", strL "app", strL "pyronix", strL "cloud"],
     answer := strL "Compatibility: V10\nInstall digi WiFi - XA into SIA port, \nDownpowered and reboot panel, \nNow navigate to communications, \nProgram WiFi - sets up hot-spot, connect via phone, \nShould take you to setup page, if not navigate to 192.168.0.1,\nPick customer WiFi and enter password, \nShould say connected on screen after a few seconds, \nNow back out and go to enable app, \nFollow this menu adding what you need to add (cloud password = 2016, App password = can be user choice or whatever you put just write down for customer) \n\nNow setup on customers phone, \nUser code will be the master manager code (this has to be able to set the system or it won\x27t work)" }]

/-- Keywords of an entry that occur as substrings of the lower-cased
query (src/app.py lines 159-162). -/
def matchedKeywords (f : QuickFix) (ql : Str) : List Str :=
  f.keywords.filter (fun kw => occursIn kw ql)

/-- Whether one of the entry's own (non-empty) panels occurs in the
lower-cased query (src/app.py lines 148-152). -/
def ownPanelHit (f : QuickFix) (ql : Str) : Bool :=
  (panelsOf f.panel).any (fun p => !p.isEmpty && occursIn p ql)

/-- Whether any (non-empty) panel of any entry of the collection occurs
in the lower-cased query (src/app.py line 155). -/
def anyPanelInQuery (fixes : List QuickFix) (ql : Str) : Bool :=
  fixes.any (fun qf => (panelsOf qf.panel).any (fun p => !p.isEmpty && occursIn p ql))

/-- The panel_match flag of find_quick_fix (src/app.py lines 144-156):
the entry's own panel occurs in the query, or no panel of any entry
occurs in the query. -/
def panelMatchB (fixes : List QuickFix) (ql : Str) (f : QuickFix) : Bool :=
  ownPanelHit f ql || !anyPanelInQuery fixes ql

/-- Score of an entry (src/app.py lines 141-162): 10 points for a panel
hit plus 1 per matched keyword. -/
def scoreFix (f : QuickFix) (ql : Str) : Nat :=
  (if ownPanelHit f ql then 10 else 0) + (matchedKeywords f ql).length

/-- Result record of find_quick_fix (src/app.py lines 168-172). -/
structure FixMatch where
  fix : QuickFix
  matched_keywords : List Str
  panel_matched : Bool
deriving DecidableEq

/-- The best-match record built for an entry
(src/app.py lines 168-172). -/
def mkFixMatch (fixes : List QuickFix) (ql : Str) (f : QuickFix) : FixMatch :=
  { fix := f, matched_keywords := matchedKeywords f ql,
    panel_matched := panelMatchB fixes ql f }

/-- The admission test of find_quick_fix (src/app.py line 165): the
panel gate holds and at least 3 keywords matched. -/
def eligFix (fixes : List QuickFix) (ql : Str) (f : QuickFix) : Bool :=
  panelMatchB fixes ql f && decide (3 ≤ (matchedKeywords f ql).length)

/-- One loop iteration of find_quick_fix (src/app.py lines 140-172),
carried out over the accumulator (best_match, best_score). -/
def fqStep (fixes : List QuickFix) (ql : Str)
    (acc : Option FixMatch × Nat) (f : QuickFix) : Option FixMatch × Nat :=
  if eligFix fixes ql f then
    (if acc.2 < scoreFix f ql then (some (mkFixMatch fixes ql f), scoreFix f ql) else acc)
  else acc

/-- find_quick_fix generalised over the collection it scans; the
significant-terms list query_words of src/app.py line 135 is computed
but never read, exactly as in the source. -/
def findQuickFixOn (fixes : List QuickFix) (query : Str) : Option FixMatch :=
  let query_lower := toLowerL query
  let query_words := sigTermsFix query
  (fixes.foldl (fqStep fixes query_lower) (none, 0)).1

/-- find_quick_fix (src/app.py lines 129-174), scanning the global
QUICK_FIXES database. -/
def findQuickFix (query : Str) : Option FixMatch :=
  findQuickFixOn QUICK_FIXES query

/-- find_quick_fix with the dead significant-terms computation of
src/app.py line 135 removed entirely. -/
def findQuickFixNoFilter (fixes : List QuickFix) (query : Str) : Option FixMatch :=
  let query_lower := toLowerL query
  (fixes.foldl (fqStep fixes query_lower) (none, 0)).1

/-- A stored quick guide (src/app.py lines 288-294). -/
structure Guide where
  id : Nat
  title : Str
  content : Str
  author : Str
  created : Str
deriving DecidableEq

/-- Result record of the quick-guides matcher
(src/app.py lines 1129-1133). -/
structure GMatch where
  guide : Guide
  match_count : Nat
  match_words : List Str
deriving DecidableEq

/-- The searchable text of a guide: lower-cased concatenation of title
and content (src/app.py line 1113). -/
def guideText (g : Guide) : Str :=
  toLowerL (g.title ++ (' ' :: g.content))

/-- Number of significant query terms occurring in the guide's text
(src/app.py line 1116); terms are counted with multiplicity, as in the
source's generator expression. -/
def matchesOf (qw : List Str) (g : Guide) : Nat :=
  (qw.filter (fun w => occursIn w (guideText g))).length

/-- Scoring of one guide (src/app.py lines 1111-1133): the guide is kept
when its match count reaches the required threshold. -/
def scoreGuide (qw : List Str) (g : Guide) : Option GMatch :=
  if requiredMatches qw.length ≤ matchesOf qw g then
    some { guide := g, match_count := matchesOf qw g,
           match_words := qw.filter (fun w => occursIn w (guideText g)) }
  else none

/-- The matching guides in input order, before sorting
(src/app.py lines 1111-1133). -/
def guideCandidates (query : Str) (guides : List Guide) : List GMatch :=
  guides.filterMap (scoreGuide (sigTermsGuides query))

/-- Stable descending insertion by a numeric key: the new element goes
before the first element whose key is not larger.  This models Python's
stable list.sort(key=..., reverse=True). -/
def insertDesc (count : α → Nat) (x : α) : List α → List α
  | [] => [x]
  | y :: ys => if count y ≤ count x then x :: y :: ys else y :: insertDesc count x ys

/-- Stable descending sort by a numeric key, modelling
list.sort(key=..., reverse=True) of src/app.py line 1136. -/
def sortDesc (count : α → Nat) : List α → List α
  | [] => []
  | x :: xs => insertDesc count x (sortDesc count xs)

/-- The quick-guides matcher (src/app.py lines 1102-1136): guides are
scanned only when there are significant query terms, and the matches are
sorted by match count, best first. -/
def matchingGuides (query : Str) (guides : List Guide) : List GMatch :=
  let query_words := sigTermsGuides query
  if query_words.isEmpty then []
  else sortDesc (fun r => r.match_count) (guides.filterMap (scoreGuide query_words))

/-- save_quick_guide (src/app.py lines 280-301): appends a new guide
whose id is the current number of guides plus one.  The creation
timestamp is passed in explicitly, standing for datetime.now(). -/
def save_quick_guide (guides : List Guide) (title content author created : Str) :
    List Guide :=
  guides ++ [{ id := guides.length + 1, title := title, content := content,
               author := author, created := created }]

/-- delete_quick_guide (src/app.py lines 303-310): removes every guide
carrying the given id from the stored list. -/
def delete_quick_guide (guides : List Guide) (gid : Nat) : List Guide :=
  guides.filter (fun g => g.id ≠ gid)

/-- A sequence of save operations applied in order
(title, content, author, created). -/
def applySaves (ops : List (Str × Str × Str × Str)) (guides : List Guide) : List Guide :=
  ops.foldl (fun gs op => save_quick_guide gs op.1 op.2.1 op.2.2.1 op.2.2.2) guides

/-- The id sequence 1, 2, ..., n. -/
def seqIds (n : Nat) : List Nat := (List.range n).map (· + 1)

/-- A guide record as the matcher sees it coming from the JSON store:
the title and content keys may be absent (Python dict access raises
KeyError on an absent key). -/
structure DictGuide where
  title : Option Str
  content : Option Str
deriving DecidableEq

/-- Python dict item access: the value when the key is present, a
KeyError otherwise. -/
def dictGet (o : Option Str) : Except String Str :=
  match o with
  | some v => .ok v
  | none => .error "KeyError"

/-- Searchable text of a dict-backed guide (src/app.py line 1113):
title and content are fetched by dict access and may raise. -/
def guideTextD (g : DictGuide) : Except String Str := do
  let t ← dictGet g.title
  let c ← dictGet g.content
  .ok (toLowerL (t ++ (' ' :: c)))

/-- Result record of the matcher over dict-backed guides. -/
structure GMatchD where
  guide : DictGuide
  match_count : Nat
  match_words : List Str
deriving DecidableEq

/-- The guide-scanning loop of src/app.py lines 1111-1133 over
dict-backed guides, propagating a KeyError from field access. -/
def collectMatchesD (qw : List Str) : List DictGuide → Except String (List GMatchD)
  | [] => .ok []
  | g :: gs => do
    let text ← guideTextD g
    let rest ← collectMatchesD qw gs
    .ok (if requiredMatches qw.length ≤ (qw.filter (fun w => occursIn w text)).length then
          { guide := g,
            match_count := (qw.filter (fun w => occursIn w text)).length,
            match_words := qw.filter (fun w => occursIn w text) } :: rest
         else rest)

/-- The quick-guides matcher over dict-backed guides
(src/app.py lines 1102-1136), with field access that may raise. -/
def matchingGuidesD (query : Str) (guides : List DictGuide) :
    Except String (List GMatchD) :=
  let query_words := sigTermsGuides query
  if query_words.isEmpty then .ok []
  else do
    let ms ← collectMatchesD query_words guides
    .ok (sortDesc (fun r => r.match_count) ms)


/-! ### String and token lemmas -/

theorem isPrefixOf_length_le : ∀ (n h : Str), n.isPrefixOf h = true → n.length ≤ h.length := by
  intro n
  induction n with
  | nil => intro h _; simp
  | cons c n ih =>
    intro h hp
    cases h with
    | nil => simp [List.isPrefixOf] at hp
    | cons d t =>
      simp only [List.isPrefixOf, Bool.and_eq_true] at hp
      simpa using Nat.succ_le_succ (ih t hp.2)

theorem isPrefixOf_cons_head {c d : Char} {n t : Str}
    (hp : (c :: n).isPrefixOf (d :: t) = true) : c = d ∧ n.isPrefixOf t = true := by
  simp only [List.isPrefixOf, Bool.and_eq_true, beq_iff_eq] at hp
  exact hp

theorem isPrefixOf_self : ∀ (l : Str), l.isPrefixOf l = true := by
  intro l
  induction l with
  | nil => rfl
  | cons c t ih => simp [List.isPrefixOf, ih]

theorem isPrefixOf_split : ∀ (a n b : Str), n.isPrefixOf (a ++ b) = true →
    n.isPrefixOf a = true ∨ ∃ n₂, n = a ++ n₂ ∧ n₂.isPrefixOf b = true := by
  intro a
  induction a with
  | nil => intro n b h; exact Or.inr ⟨n, rfl, h⟩
  | cons x a ih =>
    intro n b h
    cases n with
    | nil => exact Or.inl rfl
    | cons y n' =>
      obtain ⟨rfl, h2⟩ := isPrefixOf_cons_head h
      rcases ih n' b h2 with h3 | ⟨n₂, rfl, h4⟩
      · exact Or.inl (by simp [List.isPrefixOf, h3])
      · exact Or.inr ⟨n₂, rfl, h4⟩

theorem occursIn_length_le : ∀ (hay n : Str), occursIn n hay = true → n.length ≤ hay.length := by
  intro hay
  induction hay with
  | nil =>
    intro n h
    simp only [occursIn, List.isEmpty_iff] at h
    simp [h]
  | cons c t ih =>
    intro n h
    simp only [occursIn, Bool.or_eq_true] at h
    rcases h with h | h
    · exact isPrefixOf_length_le n (c :: t) h
    · exact Nat.le_succ_of_le (ih n h)

theorem occursIn_cons_of {n t : Str} (c : Char) (h : occursIn n t = true) :
    occursIn n (c :: t) = true := by
  simp [occursIn, h]

theorem occursIn_of_isPrefixOf {n hay : Str} (h : n.isPrefixOf hay = true) :
    occursIn n hay = true := by
  cases hay with
  | nil =>
    cases n with
    | nil => rfl
    | cons c t => simp [List.isPrefixOf] at h
  | cons c t => simp [occursIn, h]

theorem occursIn_append_split :
    ∀ (a : Str) {b n : Str}, n ≠ [] → (∀ c ∈ n, isWs c = false) →
    (∀ d ∈ b.take 1, isWs d = true) → occursIn n (a ++ b) = true →
    occursIn n a = true ∨ occursIn n b = true := by
  intro a
  induction a with
  | nil => intro b n _ _ _ h; exact Or.inr (by simpa using h)
  | cons c a ih =>
    intro b n hne hnw hb h
    simp only [List.cons_append, occursIn, Bool.or_eq_true] at h
    rcases h with h | h
    · rcases isPrefixOf_split (c :: a) n b h with h2 | ⟨n₂, rfl, h3⟩
      · exact Or.inl (occursIn_of_isPrefixOf h2)
      · cases n₂ with
        | nil =>
          exact Or.inl (by simpa using occursIn_of_isPrefixOf (isPrefixOf_self (c :: a)))
        | cons d t =>
          exfalso
          cases b with
          | nil => simp [List.isPrefixOf] at h3
          | cons e b' =>
            obtain ⟨rfl, _⟩ := isPrefixOf_cons_head h3
            have hdn : d ∈ (c :: a) ++ d :: t := by simp
            have := hnw d hdn
            have := hb d (by simp)
            simp_all
    · rcases ih hne hnw hb h with h2 | h2
      · exact Or.inl (occursIn_cons_of c h2)
      · exact Or.inr h2

theorem dropWhile_length_le : ∀ (p : Char → Bool) (l : Str),
    (l.dropWhile p).length ≤ l.length := by
  intro p l
  induction l with
  | nil => simp
  | cons c t ih =>
    by_cases h : p c
    · simpa [List.dropWhile, h] using Nat.le_succ_of_le ih
    · simp [List.dropWhile, h]

theorem dropWhile_notWs_head : ∀ (l : Str),
    l.dropWhile (fun d => !isWs d) = [] ∨
    ∃ d t, l.dropWhile (fun d => !isWs d) = d :: t ∧ isWs d = true := by
  intro l
  induction l with
  | nil => exact Or.inl rfl
  | cons c t ih =>
    by_cases h : isWs c
    · exact Or.inr ⟨c, t, by simp [List.dropWhile, h], h⟩
    · simpa [List.dropWhile, h] using ih

theorem splitWs_cons_ws {c : Char} {cs : Str} (h : isWs c = true) :
    splitWs (c :: cs) = splitWs cs := by
  simp [splitWs, h]

theorem splitWs_token : ∀ (cs : Str) (c : Char), isWs c = false →
    splitWs (c :: cs) =
      (c :: cs.takeWhile (fun d => !isWs d)) :: splitWs (cs.dropWhile (fun d => !isWs d)) := by
  intro cs
  induction cs with
  | nil => intro c h; simp [splitWs, h, List.takeWhile, List.dropWhile]
  | cons d cs' ih =>
    intro c h
    by_cases hd : isWs d
    · simp [splitWs, h, hd, List.takeWhile, List.dropWhile]
    · have hd' : isWs d = false := by simpa using hd
      have hrec := ih d hd'
      have step1 : splitWs (c :: d :: cs') =
          match splitWs (d :: cs') with
          | [] => [[c]]
          | t :: ts => (c :: t) :: ts := by
        simp [splitWs, h, hd']
      rw [step1, hrec]
      simp [List.takeWhile, List.dropWhile, hd']

theorem occursIn_in_token : ∀ (N : Nat) (hay : Str), hay.length ≤ N →
    ∀ n, n ≠ [] → (∀ c ∈ n, isWs c = false) → occursIn n hay = true →
    ∃ tok ∈ splitWs hay, occursIn n tok = true := by
  intro N
  induction N with
  | zero =>
    intro hay hlen n hne _ hocc
    have : hay = [] := List.length_eq_zero.mp (Nat.le_zero.mp hlen)
    subst this
    simp only [occursIn, List.isEmpty_iff] at hocc
    exact absurd hocc hne
  | succ N ih =>
    intro hay hlen n hne hnw hocc
    cases hay with
    | nil =>
      simp only [occursIn, List.isEmpty_iff] at hocc
      exact absurd hocc hne
    | cons c cs =>
      by_cases hc : isWs c
      · rw [splitWs_cons_ws hc]
        simp only [occursIn, Bool.or_eq_true] at hocc
        rcases hocc with h | h
        · exfalso
          cases n with
          | nil => exact hne rfl
          | cons y n' =>
            obtain ⟨rfl, _⟩ := isPrefixOf_cons_head h
            have := hnw y (by simp)
            simp_all
        · exact ih cs (Nat.le_of_succ_le_succ hlen) n hne hnw h
      · have hc' : isWs c = false := by simpa using hc
        rw [splitWs_token cs c hc']
        have hdecomp : c :: cs =
            (c :: cs.takeWhile (fun d => !isWs d)) ++ cs.dropWhile (fun d => !isWs d) := by
          simp [List.takeWhile_append_dropWhile]
        have hheadws : ∀ d ∈ (cs.dropWhile (fun d => !isWs d)).take 1, isWs d = true := by
          rcases dropWhile_notWs_head cs with h | ⟨d, t, heq, hws⟩
          · simp [h]
          · intro e he
            rw [heq] at he
            simp only [List.take, List.mem_singleton] at he
            subst he; exact hws
        rw [hdecomp] at hocc
        rcases occursIn_append_split _ hne hnw hheadws hocc with h | h
        · exact ⟨c :: cs.takeWhile (fun d => !isWs d), by simp, h⟩
        · have hlen2 : (cs.dropWhile (fun d => !isWs d)).length ≤ N :=
            Nat.le_trans (dropWhile_length_le _ cs) (Nat.le_of_succ_le_succ hlen)
          obtain ⟨tok, htok, hocc2⟩ := ih _ hlen2 n hne hnw h
          exact ⟨tok, by simp [htok], hocc2⟩

/-! ### Generic list lemmas -/

theorem filter_length_mono {α : Type} (p q : α → Bool) (l : List α)
    (h : ∀ x ∈ l, p x = true → q x = true) :
    (l.filter p).length ≤ (l.filter q).length := by
  rw [← List.countP_eq_length_filter, ← List.countP_eq_length_filter]
  exact List.countP_mono_left h

/-! ### Stable descending sort lemmas -/

theorem mem_insertDesc {α : Type} (count : α → Nat) (x y : α) :
    ∀ (l : List α), (y ∈ insertDesc count x l ↔ y = x ∨ y ∈ l) := by
  intro l
  induction l with
  | nil => simp [insertDesc]
  | cons z t ih =>
    by_cases h : count z ≤ count x
    · simp [insertDesc, h]
    · simp only [insertDesc, if_neg h, List.mem_cons, ih]
      tauto

theorem mem_sortDesc {α : Type} (count : α → Nat) (y : α) :
    ∀ (l : List α), (y ∈ sortDesc count l ↔ y ∈ l) := by
  intro l
  induction l with
  | nil => simp [sortDesc]
  | cons x t ih => simp [sortDesc, mem_insertDesc, ih]

theorem insertDesc_sorted {α : Type} (count : α → Nat) (x : α) :
    ∀ (l : List α), l.Pairwise (fun a b => count b ≤ count a) →
    (insertDesc count x l).Pairwise (fun a b => count b ≤ count a) := by
  intro l
  induction l with
  | nil => intro _; simp [insertDesc]
  | cons y t ih =>
    intro h
    rcases List.pairwise_cons.mp h with ⟨hy, ht⟩
    by_cases hc : count y ≤ count x
    · rw [insertDesc, if_pos hc]
      refine List.pairwise_cons.mpr ⟨?_, h⟩
      intro z hz
      rcases List.mem_cons.mp hz with rfl | hz2
      · exact hc
      · exact Nat.le_trans (hy z hz2) hc
    · rw [insertDesc, if_neg hc]
      refine List.pairwise_cons.mpr ⟨?_, ih ht⟩
      intro z hz
      rcases (mem_insertDesc count x z t).mp hz with rfl | hz2
      · exact Nat.le_of_lt (Nat.lt_of_not_le hc)
      · exact hy z hz2

theorem sortDesc_sorted {α : Type} (count : α → Nat) :
    ∀ (l : List α), (sortDesc count l).Pairwise (fun a b => count b ≤ count a) := by
  intro l
  induction l with
  | nil => simp [sortDesc]
  | cons x t ih => exact insertDesc_sorted count x _ ih

theorem insertDesc_filter_key {α : Type} (count : α → Nat) (x : α) (c : Nat) :
    ∀ (l : List α),
    (insertDesc count x l).filter (fun r => count r == c) =
      (if count x = c then x :: l.filter (fun r => count r == c)
       else l.filter (fun r => count r == c)) := by
  intro l
  induction l with
  | nil =>
    by_cases h : count x = c <;>
      simp [insertDesc, List.filter_cons, beq_iff_eq, h]
  | cons y t ih =>
    by_cases hc : count y ≤ count x
    · rw [insertDesc, if_pos hc]
      by_cases hx : count x = c <;>
        simp [List.filter_cons, beq_iff_eq, hx]
    · have hlt : count x < count y := Nat.lt_of_not_le hc
      rw [insertDesc, if_neg hc]
      by_cases hy : count y = c
      · have hx : ¬ count x = c := by omega
        simp [List.filter_cons, beq_iff_eq, hy, hx, ih]
      · by_cases hx : count x = c <;>
          simp [List.filter_cons, beq_iff_eq, hy, hx, ih]

theorem sortDesc_filter_key {α : Type} (count : α → Nat) (c : Nat) :
    ∀ (l : List α),
    (sortDesc count l).filter (fun r => count r == c) =
      l.filter (fun r => count r == c) := by
  intro l
  induction l with
  | nil => simp [sortDesc]
  | cons x t ih =>
    by_cases hx : count x = c <;>
      simp [sortDesc, insertDesc_filter_key, hx, List.filter_cons, beq_iff_eq, ih]

/-! ### Lemmas on the find_quick_fix loop -/

theorem foldl_fqStep_of_none (fixes : List QuickFix) (ql : Str) :
    ∀ (l : List QuickFix) (acc : Option FixMatch × Nat),
    (∀ f ∈ l, eligFix fixes ql f = false) →
    l.foldl (fqStep fixes ql) acc = acc := by
  intro l
  induction l with
  | nil => intro acc _; rfl
  | cons f t ih =>
    intro acc h
    have hf := h f (by simp)
    simp only [List.foldl_cons, fqStep, hf]
    simp only [Bool.false_eq_true, if_false]
    exact ih acc (fun g hg => h g (by simp [hg]))

theorem foldl_fqStep_snd_lt (fixes : List QuickFix) (ql : Str) (M : Nat) :
    ∀ (l : List QuickFix) (acc : Option FixMatch × Nat), acc.2 < M →
    (∀ f ∈ l, eligFix fixes ql f = true → scoreFix f ql < M) →
    (l.foldl (fqStep fixes ql) acc).2 < M := by
  intro l
  induction l with
  | nil => intro acc h _; exact h
  | cons f t ih =>
    intro acc hacc h
    simp only [List.foldl_cons, fqStep]
    by_cases he : eligFix fixes ql f = true
    · have hs := h f (by simp) he
      by_cases hlt : acc.2 < scoreFix f ql
      · simp only [he, if_true, hlt, if_pos]
        exact ih _ hs (fun g hg => h g (by simp [hg]))
      · simp only [he, if_true, hlt, if_neg, if_false]
        exact ih _ hacc (fun g hg => h g (by simp [hg]))
    · simp only [he, if_false]
      exact ih _ hacc (fun g hg => h g (by simp [hg]))

theorem foldl_fqStep_no_improve (fixes : List QuickFix) (ql : Str) (M : Nat)
    (m : FixMatch) :
    ∀ (l : List QuickFix),
    (∀ f ∈ l, eligFix fixes ql f = true → scoreFix f ql ≤ M) →
    l.foldl (fqStep fixes ql) (some m, M) = (some m, M) := by
  intro l
  induction l with
  | nil => intro _; rfl
  | cons f t ih =>
    intro h
    simp only [List.foldl_cons, fqStep]
    by_cases he : eligFix fixes ql f = true
    · have hs := h f (by simp) he
      have hnot : ¬ (some m, M).2 < scoreFix f ql := by
        simp only []
        omega
      simp only [he, if_true, hnot, if_neg, if_false]
      exact ih (fun g hg => h g (by simp [hg]))
    · simp only [he, if_false]
      exact ih (fun g hg => h g (by simp [hg]))

theorem foldl_fqStep_matched_ge (fixes : List QuickFix) (ql : Str) :
    ∀ (l : List QuickFix) (acc : Option FixMatch × Nat),
    (∀ m, acc.1 = some m → 3 ≤ m.matched_keywords.length) →
    ∀ m, (l.foldl (fqStep fixes ql) acc).1 = some m →
    3 ≤ m.matched_keywords.length := by
  intro l
  induction l with
  | nil => intro acc hacc m hm; exact hacc m hm
  | cons f t ih =>
    intro acc hacc m hm
    refine ih _ ?_ m hm
    intro m' hm'
    simp only [fqStep] at hm'
    by_cases he : eligFix fixes ql f = true
    · by_cases hlt : acc.2 < scoreFix f ql
      · simp only [he, if_true, hlt, if_pos] at hm'
        have h3 : decide (3 ≤ (matchedKeywords f ql).length) = true := by
          have := he
          simp only [eligFix, Bool.and_eq_true] at this
          exact this.2
        have h4 := of_decide_eq_true h3
        have : m' = mkFixMatch fixes ql f := by
          simpa using hm'.symm
        subst this
        simpa [mkFixMatch] using h4
      · simp only [he, if_true, hlt, if_neg, if_false] at hm'
        exact hacc m' hm'
    · simp only [he, if_false] at hm'
      exact hacc m' hm'

/-- eligible entries have score at least 3 (the matched-keyword count). -/
theorem scoreFix_pos_of_elig {fixes : List QuickFix} {ql : Str} {f : QuickFix}
    (h : eligFix fixes ql f = true) : 3 ≤ scoreFix f ql := by
  simp only [eligFix, Bool.and_eq_true, decide_eq_true_eq] at h
  have := h.2
  unfold scoreFix
  omega

/-! ### Lemmas on the quick-guides matcher -/

theorem scoreGuide_nil (g : Guide) : scoreGuide [] g = none := by
  simp [scoreGuide, requiredMatches, matchesOf]

theorem scoreGuide_eq_some {qw : List Str} {g : Guide} {r : GMatch} :
    scoreGuide qw g = some r ↔
      (requiredMatches qw.length ≤ matchesOf qw g ∧
       r = { guide := g, match_count := matchesOf qw g,
             match_words := qw.filter (fun w => occursIn w (guideText g)) }) := by
  by_cases h : requiredMatches qw.length ≤ matchesOf qw g
  · simp [scoreGuide, h, eq_comm]
  · simp [scoreGuide, h]

theorem mem_matchingGuides {query : Str} {guides : List Guide} {r : GMatch} :
    r ∈ matchingGuides query guides ↔
      ∃ g ∈ guides, scoreGuide (sigTermsGuides query) g = some r := by
  unfold matchingGuides
  by_cases hq : (sigTermsGuides query).isEmpty = true
  · have hq' : sigTermsGuides query = [] := List.isEmpty_iff.mp hq
    simp [hq, hq', scoreGuide_nil]
  · simp only [hq]
    simp only [Bool.false_eq_true, if_false]
    rw [mem_sortDesc, List.mem_filterMap]

theorem filterMap_map_sublist {α β : Type} (f : α → Option β) (proj : β → α)
    (h : ∀ a b, f a = some b → proj b = a) :
    ∀ (l : List α), ((l.filterMap f).map proj).Sublist l := by
  intro l
  induction l with
  | nil => simp
  | cons a t ih =>
    cases hfa : f a with
    | none =>
      simp only [List.filterMap_cons, hfa]
      exact ih.cons a
    | some b =>
      simp only [List.filterMap_cons, hfa, List.map_cons, h a b hfa]
      exact ih.cons₂ a

/-! ### Lemmas on guide storage -/

theorem seqIds_concat (n : Nat) : seqIds (n + 1) = seqIds n ++ [n + 1] := by
  simp [seqIds, List.range_succ]

theorem seqIds_nodup (n : Nat) : (seqIds n).Nodup :=
  List.Nodup.map (fun a b h => by omega) (List.nodup_range n)

theorem save_quick_guide_ids (gs : List Guide) (t c a cr : Str)
    (h : gs.map (fun g => g.id) = seqIds gs.length) :
    (save_quick_guide gs t c a cr).map (fun g => g.id) = seqIds (gs.length + 1) := by
  simp [save_quick_guide, seqIds_concat, h]

theorem applySaves_ids : ∀ (ops : List (Str × Str × Str × Str)) (gs : List Guide),
    gs.map (fun g => g.id) = seqIds gs.length →
    (applySaves ops gs).map (fun g => g.id) = seqIds (gs.length + ops.length) := by
  intro ops
  induction ops with
  | nil => intro gs h; simpa [applySaves] using h
  | cons op ops ih =>
    intro gs h
    have h2 := save_quick_guide_ids gs op.1 op.2.1 op.2.2.1 op.2.2.2 h
    have h3 : (save_quick_guide gs op.1 op.2.1 op.2.2.1 op.2.2.2).length = gs.length + 1 := by
      simp [save_quick_guide]
    have h4 := ih (save_quick_guide gs op.1 op.2.1 op.2.2.1 op.2.2.2) (by rw [h3]; exact h2)
    have h5 : applySaves (op :: ops) gs =
        applySaves ops (save_quick_guide gs op.1 op.2.1 op.2.2.1 op.2.2.2) := by
      simp [applySaves]
    rw [h5, h4, h3]
    congr 1
    simp only [List.length_cons]
    omega

/-! ### Lemma on the dict-backed guide scan -/

theorem collectMatchesD_ok (qw : List Str) :
    ∀ (gs : List DictGuide), (∀ g ∈ gs, g.title ≠ none ∧ g.content ≠ none) →
    ∃ l, collectMatchesD qw gs = .ok l := by
  intro gs
  induction gs with
  | nil => exact fun _ => ⟨[], rfl⟩
  | cons g t ih =>
    intro h
    obtain ⟨ht, hc⟩ := h g (by simp)
    obtain ⟨l, hl⟩ := ih (fun g' hg' => h g' (by simp [hg']))
    cases hgt : g.title with
    | none => exact absurd hgt ht
    | some tv =>
      cases hgc : g.content with
      | none => exact absurd hgc hc
      | some cv =>
        have htext : guideTextD g = .ok (toLowerL (tv ++ (' ' :: cv))) := by
          simp only [guideTextD, dictGet, hgt, hgc]
          rfl
        simp only [collectMatchesD, htext, hl]
        exact ⟨_, rfl⟩

/-! ### Decidable facts about the concrete QUICK_FIXES data -/

/-- Every keyword of every QUICK_FIXES entry is non-empty,
whitespace-free and at least 3 characters long. -/
theorem quickFixKeywordFacts : ∀ f ∈ QUICK_FIXES, ∀ kw ∈ f.keywords,
    kw ≠ [] ∧ (∀ c ∈ kw, isWs c = false) ∧ 3 ≤ kw.length := by decide

/-- At most one keyword of any QUICK_FIXES entry occurs inside a
stop word. -/
theorem quickFixKeywordStopBound : ∀ f ∈ QUICK_FIXES,
    (f.keywords.filter (fun kw => stopWordsFix.any (fun s => occursIn kw s))).length ≤ 1 := by
  decide

/-! ### Claims -/

/-- Claim C1, counterexample: the scaled admission threshold does not
govern the quick-fixes matcher.  For the single-term query "reset" the
threshold table demands 1 matched term, the first QUICK_FIXES entry
matches exactly 1 significant term (its keyword "reset", no tag bonus),
yet find_quick_fix returns no entry at all. -/
theorem c1_scaled_threshold_counterexample :
    (sigTermsFix (strL "reset")).length = 1 ∧
    requiredMatches 1 = 1 ∧
    (matchedKeywords (QUICK_FIXES.get ⟨0, by decide⟩) (toLowerL (strL "reset"))).length = 1 ∧
    findQuickFix (strL "reset") = none := by
  refine ⟨by decide, by decide, by decide, by decide⟩

/-- Claim C1 (amended): the scaled admission threshold (1 term needs 1
match, 2 need 2, three or more need 3) governs only the quick-guides
matcher, where a guide enters the result exactly when its matched-term
count reaches the threshold; the quick-fixes matcher instead admits an
entry only with at least 3 matched keywords regardless of the number of
significant query terms. -/
theorem c1_admission_thresholds :
    (∀ (query : Str) (guides : List Guide) (g : Guide),
      (∃ r ∈ matchingGuides query guides, r.guide = g) ↔
        (g ∈ guides ∧
         requiredMatches (sigTermsGuides query).length ≤ matchesOf (sigTermsGuides query) g)) ∧
    (∀ (query : Str) (fixes : List QuickFix) (m : FixMatch),
      findQuickFixOn fixes query = some m → 3 ≤ m.matched_keywords.length) := by
  constructor
  · intro query guides g
    constructor
    · rintro ⟨r, hr, hg⟩
      obtain ⟨g', hg', hs⟩ := mem_matchingGuides.mp hr
      obtain ⟨hth, hr_eq⟩ := scoreGuide_eq_some.mp hs
      subst hr_eq
      have hgg : g' = g := by simpa using hg
      subst hgg
      exact ⟨hg', hth⟩
    · rintro ⟨hg, hth⟩
      refine ⟨{ guide := g, match_count := matchesOf (sigTermsGuides query) g,
                match_words := (sigTermsGuides query).filter
                  (fun w => occursIn w (guideText g)) }, ?_, rfl⟩
      exact mem_matchingGuides.mpr ⟨g, hg, scoreGuide_eq_some.mpr ⟨hth, rfl⟩⟩
  · intro query fixes m h
    simp only [findQuickFixOn] at h
    refine foldl_fqStep_matched_ge fixes (toLowerL query) fixes (none, 0) ?_ m h
    intro m' hm'
    simp at hm'

/-- Witness for the amended claim C1 at a concrete guide collection and
the single-term query "reset". -/
theorem c1_admission_thresholds_witness :
    ∃ r ∈ matchingGuides (strL "reset")
        [{ id := 1, title := strL "Reset Panel",
           content := strL "power down mains and battery wait 30 seconds power up",
           author := strL "alice", created := strL "2024-01-01" }],
      r.guide = { id := 1, title := strL "Reset Panel",
                  content := strL "power down mains and battery wait 30 seconds power up",
                  author := strL "alice", created := strL "2024-01-01" } :=
  (c1_admission_thresholds.1 (strL "reset") _ _).mpr ⟨by decide, by decide⟩

/-- Claim C2, failing input: in find_quick_fix tag (panel) matching does
gate.  For the query "scantronic change user code" the Optima entry
matches all 3 of its keywords, yet its panel flag is false — because
some other entry's panel name "scantronic" occurs in the query — so it
is not admitted, and the result is the Scantronic 9100/MX48 entry
instead. -/
theorem c2_panel_gate_excludes :
    (matchedKeywords (QUICK_FIXES.get ⟨1, by decide⟩)
      (toLowerL (strL "scantronic change user code"))).length = 3 ∧
    panelMatchB QUICK_FIXES (toLowerL (strL "scantronic change user code"))
      (QUICK_FIXES.get ⟨1, by decide⟩) = false ∧
    eligFix QUICK_FIXES (toLowerL (strL "scantronic change user code"))
      (QUICK_FIXES.get ⟨1, by decide⟩) = false ∧
    (findQuickFix (strL "scantronic change user code")).map (fun m => m.fix.title) =
      some (strL "How to Change Codes - Scantronic 9100/MX48") := by
  refine ⟨by decide, by decide, by decide, by decide⟩

/-- Claim C3, counterexample: the quick-fixes matcher does not return
every entry meeting its threshold.  Under the query
"remove line fault engineer reset how perform" the Aritech entry is
admissible, yet the matcher returns only the single best entry (the
Scantronic line-fault entry), which differs from it. -/
theorem c3_single_result_counterexample :
    eligFix QUICK_FIXES (toLowerL (strL "remove line fault engineer reset how perform"))
      (QUICK_FIXES.get ⟨4, by decide⟩) = true ∧
    findQuickFix (strL "remove line fault engineer reset how perform") =
      some (mkFixMatch QUICK_FIXES
        (toLowerL (strL "remove line fault engineer reset how perform"))
        (QUICK_FIXES.get ⟨0, by decide⟩)) ∧
    (mkFixMatch QUICK_FIXES
        (toLowerL (strL "remove line fault engineer reset how perform"))
        (QUICK_FIXES.get ⟨0, by decide⟩)).fix ≠ QUICK_FIXES.get ⟨4, by decide⟩ := by
  refine ⟨by decide, by decide, by decide⟩

/-- Claim C3 (amended): only the quick-guides matcher returns the full
ordered subset of relevant entries — every guide whose match count
reaches the threshold appears in its output with that match count; the
quick-fixes matcher returns at most one best entry. -/
theorem c3_full_subset_guides :
    ∀ (query : Str) (guides : List Guide) (g : Guide), g ∈ guides →
    requiredMatches (sigTermsGuides query).length ≤ matchesOf (sigTermsGuides query) g →
    ∃ r ∈ matchingGuides query guides,
      r.guide = g ∧ r.match_count = matchesOf (sigTermsGuides query) g := by
  intro query guides g hg hth
  exact ⟨{ guide := g, match_count := matchesOf (sigTermsGuides query) g,
           match_words := (sigTermsGuides query).filter (fun w => occursIn w (guideText g)) },
    mem_matchingGuides.mpr ⟨g, hg, scoreGuide_eq_some.mpr ⟨hth, rfl⟩⟩, rfl, rfl⟩

/-- Witness for the amended claim C3 at a concrete two-term query. -/
theorem c3_full_subset_guides_witness :
    ∃ r ∈ matchingGuides (strL "power battery")
        [{ id := 1, title := strL "Reset Panel",
           content := strL "power down mains and battery wait 30 seconds power up",
           author := strL "alice", created := strL "2024-01-01" }],
      r.guide = { id := 1, title := strL "Reset Panel",
                  content := strL "power down mains and battery wait 30 seconds power up",
                  author := strL "alice", created := strL "2024-01-01" } ∧
      r.match_count = matchesOf (sigTermsGuides (strL "power battery"))
        { id := 1, title := strL "Reset Panel",
          content := strL "power down mains and battery wait 30 seconds power up",
          author := strL "alice", created := strL "2024-01-01" } :=
  c3_full_subset_guides (strL "power battery") _ _ (by decide) (by decide)

/-- Claim C4: a query whose significant-term list is empty (after
lower-casing, dropping tokens of length at most 2 and dropping stop
words) yields an empty result from both matchers: the quick-guides
matcher for every collection, and find_quick_fix over its QUICK_FIXES
database. -/
theorem c4_empty_terms_empty_result :
    (∀ (query : Str) (guides : List Guide),
       sigTermsGuides query = [] → matchingGuides query guides = []) ∧
    (∀ query : Str, sigTermsFix query = [] → findQuickFix query = none) := by
  constructor
  · intro query guides hq
    simp [matchingGuides, hq]
  · intro query hq
    have hterm : ∀ f ∈ QUICK_FIXES, eligFix QUICK_FIXES (toLowerL query) f = false := by
      intro f hf
      have himp : ∀ kw ∈ f.keywords, occursIn kw (toLowerL query) = true →
          (stopWordsFix.any (fun s => occursIn kw s)) = true := by
        intro kw hkw hP
        obtain ⟨hne, hnw, hlen⟩ := quickFixKeywordFacts f hf kw hkw
        obtain ⟨tok, htok, hocc⟩ :=
          occursIn_in_token (toLowerL query).length (toLowerL query) le_rfl kw hne hnw hP
        unfold sigTermsFix at hq
        have hfail := List.filter_eq_nil_iff.mp hq tok htok
        have hlen3 : 3 ≤ tok.length := Nat.le_trans hlen (occursIn_length_le tok kw hocc)
        have hcont : stopWordsFix.contains tok = true := by
          by_contra hc
          apply hfail
          have hc' : stopWordsFix.contains tok = false := by
            simpa using hc
          simp only [hc', Bool.not_false, Bool.and_true, decide_eq_true_eq]
          omega
        have hmem : tok ∈ stopWordsFix := by simpa using hcont
        exact List.any_eq_true.mpr ⟨tok, hmem, hocc⟩
      have hle : (matchedKeywords f (toLowerL query)).length ≤ 1 := by
        have hmono := filter_length_mono (fun kw => occursIn kw (toLowerL query))
          (fun kw => stopWordsFix.any (fun s => occursIn kw s)) f.keywords himp
        exact Nat.le_trans hmono (quickFixKeywordStopBound f hf)
      have hdec : decide (3 ≤ (matchedKeywords f (toLowerL query)).length) = false := by
        simp only [decide_eq_false_iff_not]
        omega
      simp [eligFix, hdec]
    have hfold := foldl_fqStep_of_none QUICK_FIXES (toLowerL query) QUICK_FIXES
      ((none : Option FixMatch), 0) hterm
    simp only [findQuickFix, findQuickFixOn]
    rw [hfold]

/-- Witness for claim C4: the stop-word query "is it on" produces no
significant terms and an empty result from both matchers. -/
theorem c4_empty_terms_empty_result_witness :
    matchingGuides (strL "is it on")
      [{ id := 1, title := strL "Reset Panel",
         content := strL "power down mains and battery wait 30 seconds power up",
         author := strL "alice", created := strL "2024-01-01" }] = [] ∧
    findQuickFix (strL "is it on") = none :=
  ⟨c4_empty_terms_empty_result.1 (strL "is it on") _ (by decide),
   c4_empty_terms_empty_result.2 (strL "is it on") (by decide)⟩

/-- Claim C5: the quick-guides matcher's output is sorted in descending
order of match count; entries with equal match counts keep exactly the
relative order of the pre-sort candidate list, which is an in-order
selection (a sublist) of the input collection. -/
theorem c5_sorted_and_stable :
    ∀ (query : Str) (guides : List Guide),
    (matchingGuides query guides).Pairwise (fun a b => b.match_count ≤ a.match_count) ∧
    (∀ c : Nat, (matchingGuides query guides).filter (fun r => r.match_count == c) =
       (guideCandidates query guides).filter (fun r => r.match_count == c)) ∧
    ((guideCandidates query guides).map (fun r => r.guide)).Sublist guides := by
  intro query guides
  refine ⟨?_, ?_, ?_⟩
  · unfold matchingGuides
    by_cases hq : (sigTermsGuides query).isEmpty = true
    · simp [hq]
    · simp only [hq, Bool.false_eq_true, if_false]
      exact sortDesc_sorted _ _
  · intro c
    unfold matchingGuides guideCandidates
    by_cases hq : (sigTermsGuides query).isEmpty = true
    · have hq' := List.isEmpty_iff.mp hq
      simp [hq, hq', scoreGuide_nil]
    · simp only [hq, Bool.false_eq_true, if_false]
      exact sortDesc_filter_key _ c _
  · refine filterMap_map_sublist _ _ ?_ guides
    intro g r hr
    obtain ⟨_, rfl⟩ := scoreGuide_eq_some.mp hr
    rfl

/-- Claim C6: when no panel name of any entry of the collection occurs
in the query, the panel flag is true for every entry, so the tag check
is a no-op: admission reduces to the keyword-count test alone. -/
theorem c6_no_panel_anywhere_no_gate :
    ∀ (query : Str) (fixes : List QuickFix) (f : QuickFix), f ∈ fixes →
    (∀ qf ∈ fixes, ∀ p ∈ panelsOf qf.panel, p ≠ [] → occursIn p (toLowerL query) = false) →
    panelMatchB fixes (toLowerL query) f = true ∧
    (eligFix fixes (toLowerL query) f = true ↔
      3 ≤ (matchedKeywords f (toLowerL query)).length) := by
  intro query fixes f hf h
  have hany : anyPanelInQuery fixes (toLowerL query) = false := by
    rw [← Bool.not_eq_true]
    intro hc
    rw [anyPanelInQuery, List.any_eq_true] at hc
    obtain ⟨qf, hqf, hin⟩ := hc
    rw [List.any_eq_true] at hin
    obtain ⟨p, hp, hcond⟩ := hin
    rw [Bool.and_eq_true] at hcond
    obtain ⟨hne, hocc⟩ := hcond
    have hne' : p ≠ [] := by simpa using hne
    have := h qf hqf p hp hne'
    rw [this] at hocc
    exact Bool.false_ne_true hocc
  have hpm : panelMatchB fixes (toLowerL query) f = true := by
    simp [panelMatchB, hany]
  refine ⟨hpm, ?_⟩
  simp [eligFix, hpm]

/-- Witness for claim C6 at the query "blue wire", which contains no
panel name of any QUICK_FIXES entry. -/
theorem c6_no_panel_anywhere_no_gate_witness :
    panelMatchB QUICK_FIXES (toLowerL (strL "blue wire"))
      (QUICK_FIXES.get ⟨0, by decide⟩) = true ∧
    (eligFix QUICK_FIXES (toLowerL (strL "blue wire"))
        (QUICK_FIXES.get ⟨0, by decide⟩) = true ↔
      3 ≤ (matchedKeywords (QUICK_FIXES.get ⟨0, by decide⟩)
        (toLowerL (strL "blue wire"))).length) :=
  c6_no_panel_anywhere_no_gate (strL "blue wire") QUICK_FIXES _ (by decide) (by decide)

/-- Claim C7, counterexample: the quick-guides matcher is not total on
entries with missing fields.  A guide record without a title key makes
the scan raise a KeyError instead of treating the field as an empty
string and returning a sequence. -/
theorem c7_missing_field_raises :
    matchingGuidesD (strL "reset panel")
      [{ title := none, content := some (strL "reset the panel") }] =
      Except.error "KeyError" := by
  rfl

/-- Claim C7 (amended): the quick-guides matcher never raises on any
query and any collection whose entries all carry title and content
fields — for such inputs, including empty queries and empty
collections, it returns an ordered sequence; an entry missing either
field raises a KeyError instead of being treated as empty. -/
theorem c7_total_on_wellformed :
    ∀ (query : Str) (guides : List DictGuide),
    (∀ g ∈ guides, g.title ≠ none ∧ g.content ≠ none) →
    ∃ l, matchingGuidesD query guides = Except.ok l := by
  intro query guides h
  unfold matchingGuidesD
  by_cases hq : (sigTermsGuides query).isEmpty = true
  · exact ⟨[], by simp [hq]⟩
  · obtain ⟨l, hl⟩ := collectMatchesD_ok (sigTermsGuides query) guides h
    refine ⟨sortDesc (fun r => r.match_count) l, ?_⟩
    simp only [hq, Bool.false_eq_true, if_false, hl]
    rfl

/-- Witness for the amended claim C7 at a concrete well-formed
collection. -/
theorem c7_total_on_wellformed_witness :
    ∃ l, matchingGuidesD (strL "reset panel")
        [{ title := some (strL "Reset Panel"), content := some (strL "power down") }] =
      Except.ok l :=
  c7_total_on_wellformed (strL "reset panel") _ (by decide)

/-- Claim C8, counterexample: guide ids are reused after a delete.
Saving two guides, deleting id 1 and saving again yields the id list
[2, 2]: the id of a live entry is reassigned, so ids are not unique
and deleted ids are not retired. -/
theorem c8_id_reuse_counterexample :
    ((save_quick_guide
        (delete_quick_guide
          (save_quick_guide
            (save_quick_guide [] (strL "t1") (strL "c1") (strL "a1") (strL "d1"))
            (strL "t2") (strL "c2") (strL "a2") (strL "d2"))
          1)
        (strL "t3") (strL "c3") (strL "a3") (strL "d3")).map (fun g => g.id)) = [2, 2] ∧
    ¬ ((save_quick_guide
        (delete_quick_guide
          (save_quick_guide
            (save_quick_guide [] (strL "t1") (strL "c1") (strL "a1") (strL "d1"))
            (strL "t2") (strL "c2") (strL "a2") (strL "d2"))
          1)
        (strL "t3") (strL "c3") (strL "a3") (strL "d3")).map (fun g => g.id)).Nodup := by
  refine ⟨by decide, by decide⟩

/-- Claim C8 (amended): without deletes, ids stay unique — a sequence
of saves starting from the empty collection assigns ids 1..n — and a
deleted id no longer appears in the stored list; but deletion is
physical (length shrinks), so a save after a delete can reassign an id
that is still in use, breaking uniqueness. -/
theorem c8_ids_without_delete :
    (∀ ops : List (Str × Str × Str × Str),
       (applySaves ops []).map (fun g => g.id) = seqIds ops.length) ∧
    (∀ ops : List (Str × Str × Str × Str),
       ((applySaves ops []).map (fun g => g.id)).Nodup) ∧
    (∀ (gs : List Guide) (gid : Nat),
       (delete_quick_guide gs gid).all (fun g => g.id != gid) = true) := by
  have hids : ∀ ops : List (Str × Str × Str × Str),
      (applySaves ops []).map (fun g => g.id) = seqIds ops.length := by
    intro ops
    have h := applySaves_ids ops [] (by simp [seqIds])
    simpa using h
  refine ⟨hids, ?_, ?_⟩
  · intro ops
    rw [hids]
    exact seqIds_nodup _
  · intro gs gid
    rw [List.all_eq_true]
    intro g hg
    rw [delete_quick_guide, List.mem_filter] at hg
    simpa [bne_iff_ne] using hg.2

/-- Claim C9: the stop-word and minimum-length filtering of
find_quick_fix is dead code — the function computed from it is never
read, so removing it entirely leaves the matcher unchanged; keyword
matching runs over the raw lower-cased query, so the stop word "how"
still counts as a matched keyword of the Aritech entry. -/
theorem c9_sig_terms_dead :
    (∀ (fixes : List QuickFix) (query : Str),
       findQuickFixOn fixes query = findQuickFixNoFilter fixes query) ∧
    stopWordsFix.contains (strL "how") = true ∧
    strL "how" ∈ matchedKeywords (QUICK_FIXES.get ⟨4, by decide⟩)
      (toLowerL (strL "how engineer reset perform")) ∧
    (findQuickFix (strL "how engineer reset perform")).map (fun m => m.matched_keywords) =
      some [strL "engineer", strL "reset", strL "how", strL "perform"] := by
  refine ⟨fun fixes query => rfl, by decide, by decide, by decide⟩

/-- Claim C10: when several admissible entries tie for the maximal
score, find_quick_fix returns the one occurring earliest in the
collection, because a later entry replaces the current best only when
its score is strictly greater. -/
theorem c10_first_max_wins (query : Str) (all : List QuickFix) (i j : Nat)
    (hi : i < all.length) (hj : j < all.length) (hij : i < j)
    (hie : eligFix all (toLowerL query) (all.get ⟨i, hi⟩) = true)
    (hje : eligFix all (toLowerL query) (all.get ⟨j, hj⟩) = true)
    (heq : scoreFix (all.get ⟨i, hi⟩) (toLowerL query) =
      scoreFix (all.get ⟨j, hj⟩) (toLowerL query))
    (hmax : ∀ f ∈ all, eligFix all (toLowerL query) f = true →
       scoreFix f (toLowerL query) ≤ scoreFix (all.get ⟨i, hi⟩) (toLowerL query))
    (hfirst : ∀ f ∈ all.take i, eligFix all (toLowerL query) f = true →
       scoreFix f (toLowerL query) ≠ scoreFix (all.get ⟨i, hi⟩) (toLowerL query)) :
    findQuickFixOn all query =
      some (mkFixMatch all (toLowerL query) (all.get ⟨i, hi⟩)) := by
  have hM3 : 3 ≤ scoreFix (all.get ⟨i, hi⟩) (toLowerL query) := scoreFix_pos_of_elig hie
  have hsplit : all = all.take i ++ all.get ⟨i, hi⟩ :: all.drop (i + 1) := by
    rw [List.get_eq_getElem]
    conv_lhs => rw [← List.take_append_drop i all]
    congr 1
    exact List.drop_eq_getElem_cons hi
  have hA : ∀ f ∈ all.take i, eligFix all (toLowerL query) f = true →
      scoreFix f (toLowerL query) < scoreFix (all.get ⟨i, hi⟩) (toLowerL query) := by
    intro f hf he
    exact Nat.lt_of_le_of_ne (hmax f (List.take_subset i all hf) he) (hfirst f hf he)
  have hacc1lt : ((all.take i).foldl (fqStep all (toLowerL query)) (none, 0)).2 <
      scoreFix (all.get ⟨i, hi⟩) (toLowerL query) := by
    refine foldl_fqStep_snd_lt all (toLowerL query) _ (all.take i) (none, 0) ?_ hA
    show 0 < scoreFix (all.get ⟨i, hi⟩) (toLowerL query)
    omega
  have hstep : fqStep all (toLowerL query)
      ((all.take i).foldl (fqStep all (toLowerL query)) (none, 0)) (all.get ⟨i, hi⟩) =
      (some (mkFixMatch all (toLowerL query) (all.get ⟨i, hi⟩)),
       scoreFix (all.get ⟨i, hi⟩) (toLowerL query)) := by
    have hie2 : eligFix all (toLowerL query) all[i] = true := by
      simpa using hie
    have hacc2 : (List.foldl (fqStep all (toLowerL query)) (none, 0) (List.take i all)).2 <
        scoreFix all[i] (toLowerL query) := by
      simpa using hacc1lt
    simp [fqStep, hie2, hacc2]
  have hB : ∀ f ∈ all.drop (i + 1), eligFix all (toLowerL query) f = true →
      scoreFix f (toLowerL query) ≤ scoreFix (all.get ⟨i, hi⟩) (toLowerL query) := by
    intro f hf he
    exact hmax f (List.drop_subset _ all hf) he
  calc findQuickFixOn all query
      = (all.foldl (fqStep all (toLowerL query)) (none, 0)).1 := rfl
    _ = ((all.take i ++ all.get ⟨i, hi⟩ :: all.drop (i + 1)).foldl
          (fqStep all (toLowerL query)) (none, 0)).1 := by rw [← hsplit]
    _ = ((all.get ⟨i, hi⟩ :: all.drop (i + 1)).foldl (fqStep all (toLowerL query))
          ((all.take i).foldl (fqStep all (toLowerL query)) (none, 0))).1 := by
        rw [List.foldl_append]
    _ = ((all.drop (i + 1)).foldl (fqStep all (toLowerL query))
          (some (mkFixMatch all (toLowerL query) (all.get ⟨i, hi⟩)),
           scoreFix (all.get ⟨i, hi⟩) (toLowerL query))).1 := by
        rw [List.foldl_cons, hstep]
    _ = some (mkFixMatch all (toLowerL query) (all.get ⟨i, hi⟩)) := by
        rw [foldl_fqStep_no_improve all (toLowerL query) _ _ (all.drop (i + 1)) hB]

/-- Witness for claim C10: under the query
"change user code only default codes" the Optima entry (index 1) and
the Accenta entry (index 3) both score 3, the maximum; the matcher
returns the Optima entry, the earlier of the two. -/
theorem c10_first_max_wins_witness :
    findQuickFixOn QUICK_FIXES (strL "change user code only default codes") =
      some (mkFixMatch QUICK_FIXES
        (toLowerL (strL "change user code only default codes"))
        (QUICK_FIXES.get ⟨1, by decide⟩)) :=
  c10_first_max_wins (strL "change user code only default codes") QUICK_FIXES 1 3
    (by decide) (by decide) (by decide) (by decide) (by decide) (by decide)
    (by decide) (by decide)
